import Mathlib

/-!
Verification development for the Toyota virtual-training web application.

The definitions below are a shallow embedding of the core subsystems of the
repository: the entity model (`training_app/models.py`), the public
visibility view and session-status classifier (`training_app/views.py`),
the admin views (`training_app/simple_admin_views.py`), the link health
checker (`validate_teams_link` in `training_app/views.py`) and the
date/time validators (`training_app/validators.py`).

Modelling conventions:
- Python strings are `List Char`; the Python `in` substring test is `pyIn`.
- Calendar dates are integers (day numbers) and times of day are minutes
  after midnight, both in the fixed Eastern reference zone of the source.
- Absolute instants are integers (minutes); the pytz conversion of a
  stored (date, time) pair to an instant is an explicit parameter `loc`,
  since comparisons of timezone-aware datetimes in Python compare the
  underlying absolute instants.
- The network probe of the link checker (`requests.head`) is an injected
  function from the timeout argument to either a status code or a raised
  exception; the checker also returns the list of timeouts of the probe
  calls it performed, so that `[]` means zero network calls.
- Database rows are Lean structures; the Django store is lists of rows
  inside `Store`; uniqueness constraints of `models.py` are explicit
  checks in the store operations.
-/

/-- Python substring test `needle in hay` on strings, as used throughout
`validate_teams_link` (views.py lines 174-197). -/
def pyIn (needle hay : List Char) : Bool := decide (needle <:+: hay)

/-- Character list of the literal `'teams.microsoft.com'` (views.py line 182). -/
def teams_microsoft_chars : List Char := "teams.microsoft.com".toList

/-- Character list of the literal `'teams.live.com'` (views.py line 182). -/
def teams_live_chars : List Char := "teams.live.com".toList

/-- Character list of the literal `'meetup-join'` (views.py line 187). -/
def meetup_join_chars : List Char := "meetup-join".toList

/-- Character list of the literal `'meet'` (views.py line 187). -/
def meet_chars : List Char := "meet".toList

/-- Embedding of `validate_teams_link` (views.py lines 174-197).  The
probe argument models `requests.head(url, timeout=5, allow_redirects=True)`:
it receives the timeout and yields either the response status code or a
raised `RequestException`.  The second component of the result collects
the timeout of every probe that was issued (so `[]` means no network
call).  The source returns True on the fast path, checks the status code
against `[200, 302, 403]` on a successful probe, and on an exception
returns whether the url still contains one of the two Teams domains. -/
def validate_teams_link (url : List Char) (probe : Nat → Except Unit Nat) :
    Bool × List Nat :=
  if url.isEmpty then (false, [])
  else if !pyIn teams_microsoft_chars url && !pyIn teams_live_chars url then (false, [])
  else if pyIn meetup_join_chars url || pyIn meet_chars url then (true, [])
  else
    match probe 5 with
    | Except.ok status => ([200, 302, 403].contains status, [5])
    | Except.error _ =>
        (pyIn teams_microsoft_chars url || pyIn teams_live_chars url, [5])

/-- The fast-path test of the link checker: a non-empty url containing a
whitelisted Teams domain and one of the join-link markers (views.py
lines 178-188). -/
def teams_fast_path (url : List Char) : Bool :=
  !url.isEmpty &&
    (pyIn teams_microsoft_chars url || pyIn teams_live_chars url) &&
    (pyIn meetup_join_chars url || pyIn meet_chars url)

/-- Embedding of `format_timedelta` (views.py lines 236-253), split into
the list of displayed parts.  The input is a duration in seconds;
`int(td.total_seconds() / 60)` truncates, which for the non-negative
durations passed by the caller is Nat division by 60. -/
def format_timedelta_parts (td : Nat) : List String :=
  let total_minutes := td / 60
  let days := total_minutes / 1440
  let hours := total_minutes % 1440 / 60
  let minutes := total_minutes % 60
  let parts :=
    (if 0 < days then [toString days ++ "d"] else []) ++
      (if 0 < hours then [toString hours ++ "h"] else [])
  if 0 < minutes || parts.isEmpty then parts ++ [toString minutes ++ "m"] else parts

/-- Embedding of `format_timedelta` (views.py lines 236-253): the parts
joined by single spaces, as in `' '.join(parts)`. -/
def format_timedelta (td : Nat) : String :=
  String.intercalate " " (format_timedelta_parts td)

/-- Last character of a string (default space), used to reason about the
unit suffix of a displayed part. -/
def last_char (s : String) : Char := s.data.reverse.headD ' '

/-- Embedding of the classification logic of `get_session_status`
(views.py lines 200-233).  Both the session start and the current
instant are absolute instants in seconds; the 30 minute window is 1800
seconds.  The source compares `timezone.now()` against
`datetime.combine(session.date, session.time_est)`; this embedding
models both values as comparable instants. -/
def get_session_status (session_datetime now : Int) : String × String :=
  if now < session_datetime then
    ("upcoming", "Starts in " ++ format_timedelta (session_datetime - now).toNat)
  else if now ≤ session_datetime + 1800 then
    ("active",
      "Active - " ++ format_timedelta (session_datetime + 1800 - now).toNat ++ " remaining")
  else
    ("ended", "Session ended")

/-- The two user roles of `CustomUser.USER_TYPE_CHOICES` (models.py lines 18-21). -/
inductive UserType where
  | master
  | admin
deriving DecidableEq, Repr

/-- The five fixed region keys of `TrainingPage.REGION_CHOICES`
(models.py lines 83-89). -/
inductive RegionKey where
  | quebec
  | central
  | pacific
  | prairie
  | atlantic
deriving DecidableEq, Repr

/-- Row of the `CustomUser` model (models.py lines 12-37): a role and the
many-to-many set of assigned `TrainingPage` ids. -/
structure CustomUser where
  id : Nat
  user_type : UserType
  assigned_regions : List Nat
deriving DecidableEq, Repr

/-- Row of the `TrainingProgram` model (models.py lines 40-76). -/
structure TrainingProgram where
  id : Nat
  is_active : Bool
deriving DecidableEq, Repr

/-- Row of the `TrainingPage` model (models.py lines 79-150): a region
with an optional reference to its current program.  The foreign key
`current_program` is declared `on_delete=models.PROTECT` (models.py
line 101). -/
structure TrainingPage where
  id : Nat
  region : RegionKey
  current_program : Option Nat
  is_active : Bool
deriving DecidableEq, Repr

/-- Row of the `TrainingSession` model (models.py lines 153-213).  The
foreign key `training_page` is `on_delete=models.CASCADE` (line 158) and
the foreign key `training_program` is `on_delete=models.CASCADE`
(line 166).  `date` is a day number and `time_est` is minutes after
midnight in the Eastern reference zone. -/
structure TrainingSession where
  id : Nat
  training_page : Nat
  training_program : Option Nat
  date : Int
  time_est : Nat
deriving DecidableEq, Repr

/-- The persistent store: one list of rows per model. -/
structure Store where
  users : List CustomUser
  pages : List TrainingPage
  programs : List TrainingProgram
  sessions : List TrainingSession
deriving DecidableEq, Repr

/-- Outcomes of the admin views: success, the redirect-with-error-message
paths, the 404 path, and the GET confirmation page. -/
inductive AdminOutcome where
  | success
  | permissionDenied
  | notFound
  | confirmPage
  | selfDeleteRejected
  | lastMasterRejected
deriving DecidableEq, Repr

/-- Store-level error taxonomy for session writes: the
`unique_together` violation (models.py line 205) and a field validation
failure (validators.py). -/
inductive StoreError where
  | constraintViolation
  | validationError
deriving DecidableEq, Repr

/-- Ascending order by `date` then `time_est`, the `order_by('date',
'time_est')` key of views.py line 39. -/
def session_order (a b : TrainingSession) : Prop :=
  a.date < b.date ∨ (a.date = b.date ∧ a.time_est ≤ b.time_est)

instance : DecidableRel session_order :=
  fun _ _ => inferInstanceAs (Decidable (_ ∨ _))

instance : IsTotal TrainingSession session_order := by
  constructor
  intro a b
  unfold session_order
  omega

instance : IsTrans TrainingSession session_order := by
  constructor
  intro a b c hab hbc
  unfold session_order at *
  omega

/-- Descending order by `date` then `time_est`, the
`order_by('-date', '-time_est')` key of simple_admin_views.py
lines 337 and 343. -/
def session_order_desc (a b : TrainingSession) : Prop :=
  b.date < a.date ∨ (b.date = a.date ∧ b.time_est ≤ a.time_est)

instance : DecidableRel session_order_desc :=
  fun _ _ => inferInstanceAs (Decidable (_ ∨ _))

/-- Embedding of the session pipeline of `training_page_view` (views.py
lines 15-57): order the sessions of the region by date and time, then
keep the ones whose regional instant is at least `cutoff = now - 36h`.
`loc` maps a stored Eastern (date, time) pair to the absolute instant of
the session (in minutes); comparing the aware regional datetime against
the aware cutoff compares these instants.  `now` is the current instant
in the regional zone, also in minutes, and 36 hours is 2160 minutes. -/
def training_page_view (sessions : List TrainingSession) (loc : Int → Nat → Int)
    (now : Int) : List TrainingSession :=
  (List.insertionSort session_order sessions).filter
    (fun s => decide (now - 2160 ≤ loc s.date s.time_est))

/-- Data assembled by `admin_dashboard` (views.py lines 85-121) that is
relevant to region scoping: the listed training pages and the session
count.  The recent-session list of the source is likewise unfiltered. -/
structure DashboardData where
  training_pages : List TrainingPage
  total_sessions : Nat
deriving DecidableEq, Repr

/-- Embedding of `admin_dashboard` (views.py lines 85-121).  Both the
master branch (lines 92-96) and the admin branch (lines 97-103) list all
active pages and count all sessions; the admin branch carries a source
comment that restriction is left for later. -/
def admin_dashboard (user : CustomUser) (store : Store) : DashboardData :=
  if user.user_type = UserType.master then
    { training_pages := store.pages.filter (fun p => p.is_active)
      total_sessions := store.sessions.length }
  else
    { training_pages := store.pages.filter (fun p => p.is_active)
      total_sessions := store.sessions.length }

/-- Embedding of the queryset of `manage_training_sessions`
(simple_admin_views.py lines 327-353): master users see every session,
admin users only the sessions of their assigned regions, ordered by
descending date and time. -/
def manage_training_sessions (user : CustomUser) (store : Store) :
    List TrainingSession :=
  if user.user_type = UserType.master then
    List.insertionSort session_order_desc store.sessions
  else
    List.insertionSort session_order_desc
      (store.sessions.filter (fun s => user.assigned_regions.contains s.training_page))

/-- The deny condition of `edit_training_session` (simple_admin_views.py
lines 365-368): a non-master user editing a session whose page is not in
the assigned regions is turned away. -/
def edit_training_session_denied (user : CustomUser) (session : TrainingSession) : Bool :=
  decide (user.user_type ≠ UserType.master) &&
    !(user.assigned_regions.contains session.training_page)

/-- The deny condition of `delete_training_session` (simple_admin_views.py
lines 393-397), identical to the edit check. -/
def delete_training_session_denied (user : CustomUser) (session : TrainingSession) : Bool :=
  decide (user.user_type ≠ UserType.master) &&
    !(user.assigned_regions.contains session.training_page)

/-- Embedding of `delete_training_course` (simple_admin_views.py
lines 483-514).  Only master users may delete; a missing course is a 404;
on POST the view first nulls the `current_program` reference of every
page pointing at the course (line 503, avoiding the ProtectedError of
the PROTECT foreign key) and then deletes the course, which by the
CASCADE declaration on `TrainingSession.training_program` (models.py
line 166) also deletes every session referencing the course. -/
def delete_training_course (store : Store) (user : CustomUser) (course_id : Nat)
    (is_post : Bool) : Store × AdminOutcome :=
  if user.user_type ≠ UserType.master then (store, AdminOutcome.permissionDenied)
  else
    match store.programs.find? (fun pr => pr.id == course_id) with
    | none => (store, AdminOutcome.notFound)
    | some _ =>
        if is_post then
          ({ store with
              pages := store.pages.map (fun p =>
                if p.current_program = some course_id then
                  { p with current_program := none }
                else p)
              programs := store.programs.filter (fun pr => decide (pr.id ≠ course_id))
              sessions := store.sessions.filter (fun s =>
                decide (s.training_program ≠ some course_id)) },
            AdminOutcome.success)
        else (store, AdminOutcome.confirmPage)

/-- Embedding of `delete_user` (simple_admin_views.py lines 591-630).
Only master users may delete; a missing target is a 404; deleting
yourself is rejected (lines 609-611, Django compares rows by primary
key); deleting a master when at most one master exists is rejected
(lines 614-618); otherwise POST removes the row and GET shows the
confirmation page. -/
def delete_user (store : Store) (acting : CustomUser) (user_id : Nat)
    (is_post : Bool) : Store × AdminOutcome :=
  if acting.user_type ≠ UserType.master then (store, AdminOutcome.permissionDenied)
  else
    match store.users.find? (fun u => u.id == user_id) with
    | none => (store, AdminOutcome.notFound)
    | some target =>
        if target.id = acting.id then (store, AdminOutcome.selfDeleteRejected)
        else if target.user_type = UserType.master ∧
            (store.users.filter (fun u => decide (u.user_type = UserType.master))).length ≤ 1 then
          (store, AdminOutcome.lastMasterRejected)
        else if is_post then
          ({ store with users := store.users.filter (fun u => decide (u.id ≠ user_id)) },
            AdminOutcome.success)
        else (store, AdminOutcome.confirmPage)

/-- Two session rows occupy the same slot when they agree on the
`unique_together = ['training_page', 'date', 'time_est']` triple of
models.py line 205. -/
def same_slot (a b : TrainingSession) : Bool :=
  a.training_page == b.training_page && a.date == b.date && a.time_est == b.time_est

/-- Fresh primary key for an inserted session row, modelling the Django
auto field: one more than the largest id in the store. -/
def next_session_id (st : List TrainingSession) : Nat :=
  st.foldr (fun s m => max s.id m) 0 + 1

/-- Store-level insert of a session, guarded by the `unique_together`
constraint of models.py line 205: a row with an occupied
(training_page, date, time_est) slot is rejected with a constraint
violation and the store is unchanged. -/
def session_create (st : List TrainingSession) (s : TrainingSession) :
    List TrainingSession × Option StoreError :=
  if st.any (fun t => same_slot t { s with id := next_session_id st }) then
    (st, some StoreError.constraintViolation)
  else (st ++ [{ s with id := next_session_id st }], none)

/-- Store-level update of the session with primary key `sid` to the field
values of `s` (the primary key itself is not editable through the model
form).  The `unique_together` check excludes the row being edited, as
Django `validate_unique` does. -/
def session_edit (st : List TrainingSession) (sid : Nat) (s : TrainingSession) :
    List TrainingSession × Option StoreError :=
  if st.any (fun t => decide (t.id ≠ sid) && same_slot t { s with id := sid }) then
    (st, some StoreError.constraintViolation)
  else (st.map (fun t => if t.id = sid then { s with id := sid } else t), none)

/-- Session stores reachable from the empty store through successful
create and edit operations. -/
inductive SessionReachable : List TrainingSession → Prop where
  | init : SessionReachable []
  | create (st : List TrainingSession) (s : TrainingSession) (st2 : List TrainingSession) :
      SessionReachable st → session_create st s = (st2, none) → SessionReachable st2
  | edit (st : List TrainingSession) (sid : Nat) (s : TrainingSession)
      (st2 : List TrainingSession) :
      SessionReachable st → session_edit st sid s = (st2, none) → SessionReachable st2

/-- Embedding of `validate_training_session_date` (validators.py
lines 263-288): at most 365 days in the future and at most 30 days in
the past, both bounds inclusive.  Dates are day numbers. -/
def validate_training_session_date (today value : Int) : Option String :=
  if today + 365 < value then
    some "Training session cannot be scheduled more than 1 year in the future."
  else if value < today - 30 then
    some "Training session cannot be scheduled more than 30 days in the past."
  else none

/-- Embedding of `validate_training_session_time` (validators.py
lines 291-313): business hours 8:00 to 18:00 inclusive, in minutes after
midnight (480 to 1080). -/
def validate_training_session_time (value : Nat) : Option String :=
  if value < 480 || 1080 < value then
    some "Training sessions can only be scheduled during business hours (8:00 AM - 6:00 PM)."
  else none

/-- Session create as performed through the admin form
(`SimpleTrainingSessionForm`, forms.py lines 170-262, used by
`create_training_session` in simple_admin_views.py lines 212-275): the
model field validators of models.py lines 172-180 run during form
validation, and only a validated row reaches the store insert. -/
def form_create_training_session (st : List TrainingSession) (today : Int)
    (s : TrainingSession) : List TrainingSession × Option StoreError :=
  if (validate_training_session_date today s.date).isSome ||
      (validate_training_session_time s.time_est).isSome then
    (st, some StoreError.validationError)
  else session_create st s

/-- Session edit as performed through the admin form
(`edit_training_session`, simple_admin_views.py lines 356-382), with the
same field validation as the create path. -/
def form_edit_training_session (st : List TrainingSession) (today : Int) (sid : Nat)
    (s : TrainingSession) : List TrainingSession × Option StoreError :=
  if (validate_training_session_date today s.date).isSome ||
      (validate_training_session_time s.time_est).isSome then
    (st, some StoreError.validationError)
  else session_edit st sid s

/-! ### Helper lemmas -/

theorem pyIn_eq_true_iff (n h : List Char) : pyIn n h = true ↔ n <:+: h := by
  simp [pyIn]

theorem pyIn_hay_not_empty (n h : List Char) (hn : n ≠ []) (hin : pyIn n h = true) :
    h.isEmpty = false := by
  rw [pyIn_eq_true_iff] at hin
  obtain ⟨s, t, hst⟩ := hin
  have hne : h ≠ [] := by
    rw [← hst]
    intro hc
    rw [List.append_eq_nil, List.append_eq_nil] at hc
    exact hn hc.1.2
  cases hh : h.isEmpty
  · rfl
  · exact absurd (List.isEmpty_iff.mp hh) hne

/-- C9: every URL made of a whitelisted meeting-provider domain and a path
containing one of the fixed join-link markers is classified valid by
`validate_teams_link` with zero network calls (views.py lines 174-188). -/
theorem teams_link_fast_path_valid (scheme domain path : List Char)
    (probe : Nat → Except Unit Nat)
    (hdom : domain ∈ [teams_microsoft_chars, teams_live_chars])
    (hmark : ∃ m ∈ [meetup_join_chars, meet_chars], m <:+: path) :
    validate_teams_link (scheme ++ domain ++ path) probe = (true, []) := by
  obtain ⟨m, hm, hminf⟩ := hmark
  have hpath : path <:+: scheme ++ domain ++ path :=
    (List.suffix_append (scheme ++ domain) path).isInfix
  have hdominf : domain <:+: scheme ++ domain ++ path := List.infix_append scheme domain path
  have hd : pyIn teams_microsoft_chars (scheme ++ domain ++ path) = true ∨
      pyIn teams_live_chars (scheme ++ domain ++ path) = true := by
    rcases List.mem_pair.mp hdom with rfl | rfl
    · exact Or.inl ((pyIn_eq_true_iff _ _).mpr hdominf)
    · exact Or.inr ((pyIn_eq_true_iff _ _).mpr hdominf)
  have hmk : (pyIn meetup_join_chars (scheme ++ domain ++ path) ||
      pyIn meet_chars (scheme ++ domain ++ path)) = true := by
    rcases List.mem_pair.mp hm with rfl | rfl
    · rw [(pyIn_eq_true_iff meetup_join_chars _).mpr (hminf.trans hpath), Bool.true_or]
    · rw [(pyIn_eq_true_iff meet_chars _).mpr (hminf.trans hpath), Bool.or_true]
  have hne : (scheme ++ domain ++ path).isEmpty = false := by
    rcases hd with h | h
    · exact pyIn_hay_not_empty _ _ (by decide) h
    · exact pyIn_hay_not_empty _ _ (by decide) h
  set url := scheme ++ domain ++ path with hurl
  rcases hd with h | h <;> simp [validate_teams_link, hne, h, hmk]

theorem teams_link_fast_path_valid_witness :
    validate_teams_link
      ("https://".toList ++ teams_microsoft_chars ++ "/l/meetup-join/19abc".toList)
      (fun _ => Except.ok 404) = (true, []) :=
  teams_link_fast_path_valid _ _ _ _ (by decide)
    ⟨meetup_join_chars, by decide, by decide⟩

/-- C2 counterexample: the URL `https://teams.microsoft.com/abc` does not
satisfy the fast-path test, the fallback probe is attempted once with the
5-second timeout and raises, and yet the result is valid, not invalid:
the exception handler of views.py lines 195-197 returns True for every
URL containing a whitelisted domain, and only such URLs reach the
fallback. -/
theorem teams_link_timeout_classified_valid :
    teams_fast_path "https://teams.microsoft.com/abc".toList = false ∧
    validate_teams_link "https://teams.microsoft.com/abc".toList
      (fun _ => Except.error ()) = (true, [5]) := by
  constructor
  · decide
  · decide

/-- C2 amended: for every URL that fails the fast-path test, if the URL
contains no whitelisted domain the checker returns invalid with zero
network calls (views.py lines 182-183); otherwise it issues exactly one
probe with a 5-second timeout and, when that probe raises or times out,
the result is valid (since the URL already contains a whitelisted
domain), with no error propagated; on a completed probe the result is
membership of the status code in [200, 302, 403]. -/
theorem teams_link_fallback_spec (url : List Char) (probe : Nat → Except Unit Nat)
    (hfp : teams_fast_path url = false) :
    ((pyIn teams_microsoft_chars url = false ∧ pyIn teams_live_chars url = false) →
        validate_teams_link url probe = (false, [])) ∧
    ((pyIn teams_microsoft_chars url = true ∨ pyIn teams_live_chars url = true) →
        (validate_teams_link url probe).2 = [5] ∧
        (∀ e, probe 5 = Except.error e → (validate_teams_link url probe).1 = true) ∧
        (∀ c, probe 5 = Except.ok c →
            (validate_teams_link url probe).1 = [200, 302, 403].contains c)) := by
  constructor
  · rintro ⟨h1, h2⟩
    cases hne : url.isEmpty
    · simp [validate_teams_link, hne, h1, h2]
    · simp [validate_teams_link, hne]
  · intro hd
    have hne : url.isEmpty = false := by
      rcases hd with h | h
      · exact pyIn_hay_not_empty _ _ (by decide) h
      · exact pyIn_hay_not_empty _ _ (by decide) h
    have hg3 : (pyIn meetup_join_chars url || pyIn meet_chars url) = false := by
      unfold teams_fast_path at hfp
      rcases hd with h | h <;> simp [hne, h] at hfp <;> simp [hfp]
    have hg2 : (!pyIn teams_microsoft_chars url && !pyIn teams_live_chars url) = false := by
      rcases hd with h | h <;> simp [h]
    refine ⟨?_, ?_, ?_⟩
    · rcases hp : probe 5 with e | c <;>
        simp [validate_teams_link, hne, hg2, hg3, hp]
    · intro e he
      rcases hd with h | h <;> simp [validate_teams_link, hne, hg2, hg3, he, h]
    · intro c hc
      simp [validate_teams_link, hne, hg2, hg3, hc]

theorem teams_link_fallback_spec_witness :
    (validate_teams_link "https://teams.live.com/abc".toList
        (fun _ => Except.error ())).2 = [5] ∧
    (validate_teams_link "https://teams.live.com/abc".toList
        (fun _ => Except.error ())).1 = true := by
  have h := teams_link_fallback_spec "https://teams.live.com/abc".toList
    (fun _ => Except.error ()) (by decide)
  have h2 := h.2 (Or.inr (by decide))
  exact ⟨h2.1, h2.2.1 () rfl⟩

/-- Concrete store for the program-deletion claims: one program that is
the current program of two regions, and one session referencing it. -/
def programDeleteStore : Store :=
  { users := []
    pages := [⟨1, RegionKey.quebec, some 1, true⟩, ⟨2, RegionKey.central, some 1, true⟩]
    programs := [⟨1, true⟩]
    sessions := [⟨1, 1, some 1, 0, 600⟩] }

/-- A master actor used as the acting user in the deletion claims. -/
def masterActor : CustomUser := ⟨1, UserType.master, []⟩

/-- C1 counterexample: a master deletes a program that is the current
program of two regions; the deletion succeeds, but the session set is
changed, because the CASCADE declaration on
`TrainingSession.training_program` (models.py line 166) deletes the
session referencing the program. -/
theorem delete_training_course_removes_sessions :
    (delete_training_course programDeleteStore masterActor 1 true).2 =
      AdminOutcome.success ∧
    (delete_training_course programDeleteStore masterActor 1 true).1.sessions ≠
      programDeleteStore.sessions := by
  constructor
  · decide
  · decide

/-- C1 amended: a master deleting an existing program succeeds; every
page that referenced the program has its current-program reference set
to none and no page is deleted; the surviving sessions are exactly the
sessions that did not reference the deleted program, so sessions
referencing it are cascade-deleted and all others are retained
(simple_admin_views.py lines 483-514 with models.py line 166). -/
theorem delete_training_course_spec (store : Store) (u : CustomUser) (cid : Nat)
    (hm : u.user_type = UserType.master)
    (hfound : (store.programs.find? (fun pr => pr.id == cid)).isSome) :
    (delete_training_course store u cid true).2 = AdminOutcome.success ∧
    (∀ p ∈ (delete_training_course store u cid true).1.pages,
      p.current_program ≠ some cid) ∧
    (delete_training_course store u cid true).1.pages.length = store.pages.length ∧
    (delete_training_course store u cid true).1.sessions =
      store.sessions.filter (fun s => decide (s.training_program ≠ some cid)) ∧
    (∀ s ∈ store.sessions, s.training_program ≠ some cid →
      s ∈ (delete_training_course store u cid true).1.sessions) := by
  obtain ⟨pr, hpr⟩ := Option.isSome_iff_exists.mp hfound
  have hmne : ¬ (u.user_type ≠ UserType.master) := by simp [hm]
  have hred : delete_training_course store u cid true =
      ({ store with
          pages := store.pages.map (fun p =>
            if p.current_program = some cid then { p with current_program := none } else p)
          programs := store.programs.filter (fun pr => decide (pr.id ≠ cid))
          sessions := store.sessions.filter (fun s =>
            decide (s.training_program ≠ some cid)) }, AdminOutcome.success) := by
    unfold delete_training_course
    rw [if_neg hmne, hpr]
    rfl
  rw [hred]
  refine ⟨rfl, ?_, ?_, rfl, ?_⟩
  · intro p hp
    simp only [List.mem_map] at hp
    obtain ⟨q, hq, rfl⟩ := hp
    by_cases h : q.current_program = some cid <;> simp [h]
  · exact List.length_map _ _
  · intro s hs hne
    simp [List.mem_filter, hs, hne]

theorem delete_training_course_spec_witness :
    (delete_training_course programDeleteStore masterActor 1 true).2 =
      AdminOutcome.success ∧
    (delete_training_course programDeleteStore masterActor 1 true).1.pages.length =
      programDeleteStore.pages.length := by
  have h := delete_training_course_spec programDeleteStore masterActor 1 rfl (by decide)
  exact ⟨h.1, h.2.2.1⟩

/-- C7: a master attempting to delete an actor is rejected with the
store unchanged when the target is the acting actor itself or when the
target is a master and the master count is one, i.e. the target is the
last remaining master (simple_admin_views.py lines 591-630). -/
theorem delete_user_safety (store : Store) (acting target : CustomUser) (uid : Nat)
    (is_post : Bool) (hm : acting.user_type = UserType.master)
    (hfind : store.users.find? (fun u => u.id == uid) = some target)
    (hreject : target.id = acting.id ∨
      (target.user_type = UserType.master ∧
        (store.users.filter
          (fun u => decide (u.user_type = UserType.master))).length = 1)) :
    (delete_user store acting uid is_post).1 = store ∧
    (delete_user store acting uid is_post).2 ≠ AdminOutcome.success := by
  have hmne : ¬ (acting.user_type ≠ UserType.master) := by simp [hm]
  simp only [delete_user, if_neg hmne, hfind]
  rcases hreject with hself | ⟨htm, hcount⟩
  · rw [if_pos hself]
    exact ⟨rfl, fun h => AdminOutcome.noConfusion h⟩
  · by_cases hself : target.id = acting.id
    · rw [if_pos hself]
      exact ⟨rfl, fun h => AdminOutcome.noConfusion h⟩
    · rw [if_neg hself, if_pos ⟨htm, by omega⟩]
      exact ⟨rfl, fun h => AdminOutcome.noConfusion h⟩

/-- Store with exactly one master actor, for the actor-deletion witness. -/
def singleMasterStore : Store :=
  { users := [⟨1, UserType.master, []⟩], pages := [], programs := [], sessions := [] }

theorem delete_user_safety_witness :
    (delete_user singleMasterStore masterActor 1 true).1 = singleMasterStore ∧
    (delete_user singleMasterStore masterActor 1 true).2 ≠ AdminOutcome.success :=
  delete_user_safety singleMasterStore masterActor ⟨1, UserType.master, []⟩ 1 true rfl
    (by decide) (Or.inl rfl)

/-- Admin actor whose assigned regions are exactly the quebec page (id 1). -/
def quebecOnlyAdmin : CustomUser := ⟨5, UserType.admin, [1]⟩

/-- Store with the quebec page (id 1), the central page (id 2) and one
session belonging to the central page. -/
def centralSessionStore : Store :=
  { users := [⟨5, UserType.admin, [1]⟩]
    pages := [⟨1, RegionKey.quebec, none, true⟩, ⟨2, RegionKey.central, none, true⟩]
    programs := []
    sessions := [⟨1, 2, none, 0, 600⟩] }

/-- C3 counterexample: the dashboard view of views.py lines 85-121 does
not deny reads of central-scoped data to an admin assigned only to
quebec: its session count includes the central session and its page list
includes the central page, so not every read scoped to central results
in a deny. -/
theorem admin_dashboard_not_region_scoped :
    (admin_dashboard quebecOnlyAdmin centralSessionStore).total_sessions = 1 ∧
    (⟨2, RegionKey.central, none, true⟩ : TrainingPage) ∈
      (admin_dashboard quebecOnlyAdmin centralSessionStore).training_pages := by
  constructor
  · decide
  · decide

/-- C3 amended: for an admin whose assigned regions are exactly the
quebec page, the write operations scoped to another region are denied
(edit and delete checks of simple_admin_views.py lines 365-368 and
393-397) and the simple-admin session list excludes sessions of other
regions (lines 338-343); the legacy dashboard of views.py lines 85-121,
however, lists all active pages and counts all sessions for admins, so
its reads are not region-restricted. -/
theorem admin_region_scope_partial (u : CustomUser) (qid : Nat) (store : Store)
    (s : TrainingSession) (hadmin : u.user_type = UserType.admin)
    (hassigned : u.assigned_regions = [qid]) (hother : s.training_page ≠ qid) :
    edit_training_session_denied u s = true ∧
    delete_training_session_denied u s = true ∧
    s ∉ manage_training_sessions u store ∧
    admin_dashboard u store =
      { training_pages := store.pages.filter (fun p => p.is_active)
        total_sessions := store.sessions.length } := by
  have hne : u.user_type ≠ UserType.master := by
    rw [hadmin]
    exact fun h => UserType.noConfusion h
  have hnm : ¬ (u.user_type = UserType.master) := hne
  have hcont : u.assigned_regions.contains s.training_page = false := by
    rw [hassigned]
    simp [hother]
  have hmem : s.training_page ∉ u.assigned_regions := by
    rw [hassigned]
    simp [hother]
  refine ⟨?_, ?_, ?_, ?_⟩
  · simp [edit_training_session_denied, hne, hmem]
  · simp [delete_training_session_denied, hne, hmem]
  · unfold manage_training_sessions
    rw [if_neg hnm]
    intro hmem
    rw [(List.perm_insertionSort _ _).mem_iff, List.mem_filter, hcont] at hmem
    exact absurd hmem.2 (by simp)
  · unfold admin_dashboard
    rw [if_neg hnm]

theorem admin_region_scope_partial_witness :
    edit_training_session_denied quebecOnlyAdmin ⟨1, 2, none, 0, 600⟩ = true ∧
    delete_training_session_denied quebecOnlyAdmin ⟨1, 2, none, 0, 600⟩ = true := by
  have h := admin_region_scope_partial quebecOnlyAdmin 1 centralSessionStore
    ⟨1, 2, none, 0, 600⟩ rfl rfl (by decide)
  exact ⟨h.1, h.2.1⟩

/-- C4: the public visibility pipeline keeps exactly the sessions whose
regional instant is at least `now - 36h` (so a session exactly on the
36-hour boundary is retained and only strictly earlier ones are
discarded), and returns them in ascending order by date then time
(views.py lines 15-57; 36 hours is 2160 minutes). -/
theorem training_page_view_spec (sessions : List TrainingSession)
    (loc : Int → Nat → Int) (now : Int) :
    (∀ s, s ∈ training_page_view sessions loc now ↔
        s ∈ sessions ∧ now - 2160 ≤ loc s.date s.time_est) ∧
    List.Sorted session_order (training_page_view sessions loc now) ∧
    (∀ s ∈ sessions, loc s.date s.time_est = now - 2160 →
        s ∈ training_page_view sessions loc now) := by
  have hmem : ∀ s, s ∈ training_page_view sessions loc now ↔
      s ∈ sessions ∧ now - 2160 ≤ loc s.date s.time_est := by
    intro s
    unfold training_page_view
    rw [List.mem_filter, (List.perm_insertionSort session_order sessions).mem_iff]
    simp
  refine ⟨hmem, ?_, ?_⟩
  · unfold training_page_view
    exact List.Pairwise.sublist (List.filter_sublist _)
      (List.sorted_insertionSort session_order sessions)
  · intro s hs heq
    exact (hmem s).mpr ⟨hs, le_of_eq heq.symm⟩

/-- C5: characterization of the embedded classification logic of
`get_session_status` (views.py lines 200-233): upcoming exactly when the
current instant precedes the start, active exactly within the inclusive
30-minute window after the start, ended exactly after that window, with
the upcoming and active messages built from the formatted remaining time
and a fixed ended message.  In the deployed code this logic is never
reached, because the comparison of an aware and a naive datetime raises;
this theorem records the classification the branch structure defines. -/
theorem get_session_status_spec (start now : Int) :
    ((get_session_status start now).1 = "upcoming" ↔ now < start) ∧
    ((get_session_status start now).1 = "active" ↔ start ≤ now ∧ now ≤ start + 1800) ∧
    ((get_session_status start now).1 = "ended" ↔ start + 1800 < now) ∧
    (now < start →
      (get_session_status start now).2 =
        "Starts in " ++ format_timedelta (start - now).toNat) ∧
    (start ≤ now → now ≤ start + 1800 →
      (get_session_status start now).2 =
        "Active - " ++ format_timedelta (start + 1800 - now).toNat ++ " remaining") ∧
    (start + 1800 < now → (get_session_status start now).2 = "Session ended") := by
  unfold get_session_status
  by_cases h1 : now < start
  · rw [if_pos h1]
    exact ⟨iff_of_true rfl h1, iff_of_false (by simp) (by omega),
      iff_of_false (by simp) (by omega), fun _ => rfl,
      fun ha _ => absurd h1 (by omega), fun hc => absurd h1 (by omega)⟩
  · by_cases h2 : now ≤ start + 1800
    · rw [if_neg h1, if_pos h2]
      exact ⟨iff_of_false (by simp) h1, iff_of_true rfl ⟨by omega, h2⟩,
        iff_of_false (by simp) (by omega), fun h => absurd h h1,
        fun _ _ => rfl, fun hc => absurd hc (by omega)⟩
    · rw [if_neg h1, if_neg h2]
      exact ⟨iff_of_false (by simp) h1, iff_of_false (by simp) (by omega),
        iff_of_true rfl (by omega), fun h => absurd h h1,
        fun ha hb => absurd hb h2, fun _ => rfl⟩

theorem last_char_append_d (s : String) : last_char (s ++ "d") = 'd' := by
  unfold last_char
  rw [String.data_append]
  simp

theorem last_char_append_h (s : String) : last_char (s ++ "h") = 'h' := by
  unfold last_char
  rw [String.data_append]
  simp

theorem last_char_append_m (s : String) : last_char (s ++ "m") = 'm' := by
  unfold last_char
  rw [String.data_append]
  simp

theorem append_d_ne_zero_m (s : String) : s ++ "d" ≠ "0m" := by
  intro h
  have hc := congrArg last_char h
  rw [last_char_append_d] at hc
  exact absurd hc (by decide)

theorem append_h_ne_zero_m (s : String) : s ++ "h" ≠ "0m" := by
  intro h
  have hc := congrArg last_char h
  rw [last_char_append_h] at hc
  exact absurd hc (by decide)

theorem small_minutes_ne_zero_m : ∀ m : Nat, m < 60 → 0 < m → toString m ++ "m" ≠ "0m" := by
  decide

/-- C6 counterexample: `format_timedelta` applied to the positive
duration of 30 seconds displays exactly the string `0m`, which the claim
forbids: views.py line 250 appends the minutes part whenever the parts
list is still empty, even when the truncated minutes value is zero. -/
theorem format_timedelta_displays_zero_m :
    0 < 30 ∧ format_timedelta 30 = "0m" := by
  constructor
  · decide
  · decide

/-- C6 amended: for every duration of at least one minute the displayed
parts are non-empty, never contain the part `0m`, and carry their unit
suffixes in the order days, hours, minutes (zero-valued units omitted);
for a positive duration under one minute the code displays exactly `0m`
rather than a minimum of `1m` (views.py lines 236-253). -/
theorem format_timedelta_units (td : Nat) :
    (60 ≤ td →
      format_timedelta_parts td ≠ [] ∧
      "0m" ∉ format_timedelta_parts td ∧
      List.Sublist ((format_timedelta_parts td).map last_char) ['d', 'h', 'm']) ∧
    (td < 60 → format_timedelta td = "0m") := by
  constructor
  · intro h60
    have htm : 1 ≤ td / 60 := by omega
    have hmlt : td / 60 % 60 < 60 := Nat.mod_lt _ (by norm_num)
    unfold format_timedelta_parts
    by_cases hd : 0 < td / 60 / 1440 <;> by_cases hh : 0 < td / 60 % 1440 / 60 <;>
      by_cases hmm : 0 < td / 60 % 60 <;>
      simp [hd, hh, hmm]
    · refine ⟨⟨fun h => append_d_ne_zero_m _ h.symm, fun h => append_h_ne_zero_m _ h.symm,
        fun h => small_minutes_ne_zero_m _ hmlt hmm h.symm⟩, ?_⟩
      simp only [last_char_append_d, last_char_append_h, last_char_append_m]
      decide
    · refine ⟨⟨fun h => append_d_ne_zero_m _ h.symm, fun h => append_h_ne_zero_m _ h.symm⟩, ?_⟩
      simp only [last_char_append_d, last_char_append_h]
      decide
    · refine ⟨⟨fun h => append_d_ne_zero_m _ h.symm,
        fun h => small_minutes_ne_zero_m _ hmlt hmm h.symm⟩, ?_⟩
      simp only [last_char_append_d, last_char_append_m]
      decide
    · exact ⟨fun h => append_d_ne_zero_m _ h.symm, Or.inl (last_char_append_d _)⟩
    · refine ⟨⟨fun h => append_h_ne_zero_m _ h.symm,
        fun h => small_minutes_ne_zero_m _ hmlt hmm h.symm⟩, ?_⟩
      simp only [last_char_append_h, last_char_append_m]
      decide
    · exact ⟨fun h => append_h_ne_zero_m _ h.symm, Or.inr (Or.inl (last_char_append_h _))⟩
    · exact ⟨fun h => small_minutes_ne_zero_m _ hmlt hmm h.symm,
        Or.inr (Or.inr (last_char_append_m _))⟩
    · exact absurd htm (by omega)
  · intro hlt
    have h0 : td / 60 = 0 := Nat.div_eq_of_lt hlt
    unfold format_timedelta format_timedelta_parts
    rw [h0]
    decide

theorem format_timedelta_units_witness :
    format_timedelta_parts 3900 ≠ [] ∧ "0m" ∉ format_timedelta_parts 3900 := by
  have h := (format_timedelta_units 3900).1 (by norm_num)
  exact ⟨h.1, h.2.1⟩

theorem same_slot_iff (a b : TrainingSession) :
    same_slot a b = true ↔
      a.training_page = b.training_page ∧ a.date = b.date ∧ a.time_est = b.time_est := by
  simp [same_slot, and_assoc]

theorem same_slot_swap (a b : TrainingSession) (h : same_slot a b = true) :
    same_slot b a = true := by
  rw [same_slot_iff] at h ⊢
  exact ⟨h.1.symm, h.2.1.symm, h.2.2.symm⟩

theorem same_slot_set_id (a s : TrainingSession) (n : Nat) :
    same_slot a { s with id := n } = same_slot a s := rfl

theorem id_le_fold_max (st : List TrainingSession) (t : TrainingSession) (ht : t ∈ st) :
    t.id ≤ st.foldr (fun s m => max s.id m) 0 := by
  induction st with
  | nil => cases ht
  | cons a l ih =>
      rcases List.mem_cons.mp ht with rfl | h
      · exact le_max_left _ _
      · exact le_trans (ih h) (le_max_right _ _)

/-- Invariant carried by reachable session stores: the slot triples are
pairwise distinct and the primary keys are pairwise distinct. -/
def session_inv (st : List TrainingSession) : Prop :=
  List.Pairwise (fun a b => same_slot a b = false ∧ a.id ≠ b.id) st

theorem session_inv_create (st : List TrainingSession) (s : TrainingSession)
    (st2 : List TrainingSession) (h : session_create st s = (st2, none))
    (hinv : session_inv st) : session_inv st2 := by
  unfold session_create at h
  split at h
  · exact absurd (congrArg Prod.snd h) (by simp)
  · rename_i hany
    have hst2 : st2 = st ++ [{ s with id := next_session_id st }] :=
      (congrArg Prod.fst h).symm
    subst hst2
    rw [session_inv, List.pairwise_append]
    refine ⟨hinv, List.pairwise_singleton _ _, ?_⟩
    intro a ha b hb
    rw [List.mem_singleton] at hb
    subst hb
    constructor
    · rcases hslot : same_slot a { s with id := next_session_id st } with _ | _
      · rfl
      · exact absurd (List.any_eq_true.mpr ⟨a, ha, hslot⟩) hany
    · have := id_le_fold_max st a ha
      show a.id ≠ next_session_id st
      unfold next_session_id
      omega

theorem session_inv_edit (st : List TrainingSession) (sid : Nat) (s : TrainingSession)
    (st2 : List TrainingSession) (h : session_edit st sid s = (st2, none))
    (hinv : session_inv st) : session_inv st2 := by
  unfold session_edit at h
  split at h
  · exact absurd (congrArg Prod.snd h) (by simp)
  · rename_i hany
    have hst2 : st2 = st.map (fun t => if t.id = sid then { s with id := sid } else t) :=
      (congrArg Prod.fst h).symm
    subst hst2
    have hno : ∀ t ∈ st, t.id ≠ sid → same_slot t { s with id := sid } = false := by
      intro t ht hid
      rcases hslot : same_slot t { s with id := sid } with _ | _
      · rfl
      · exact absurd (List.any_eq_true.mpr ⟨t, ht, by simp [hid, hslot]⟩) hany
    rw [session_inv, List.pairwise_map]
    refine hinv.imp_of_mem ?_
    intro a b ha hb hab
    have hida : (if a.id = sid then { s with id := sid } else a).id = a.id := by
      split <;> simp_all
    have hidb : (if b.id = sid then { s with id := sid } else b).id = b.id := by
      split <;> simp_all
    constructor
    · by_cases hax : a.id = sid <;> by_cases hbx : b.id = sid
      · exact absurd (hax.trans hbx.symm) hab.2
      · rw [if_pos hax, if_neg hbx]
        rcases hslot : same_slot { s with id := sid } b with _ | _
        · rfl
        · exact absurd (same_slot_swap _ _ hslot) (by simp [hno b hb hbx])
      · rw [if_neg hax, if_pos hbx]
        exact hno a ha hax
      · rw [if_neg hax, if_neg hbx]
        exact hab.1
    · rw [hida, hidb]
      exact hab.2

/-- C8: in every session store reachable through the create and edit
operations, no two sessions share the same (training_page, date,
time_est) triple (the `unique_together` invariant of models.py
line 205), and an attempted create whose triple is already occupied is
rejected with a constraint violation and leaves the store unchanged. -/
theorem session_slot_uniqueness :
    (∀ st, SessionReachable st →
      List.Pairwise (fun a b => same_slot a b = false) st) ∧
    (∀ (st : List TrainingSession) (s : TrainingSession),
      (∃ t ∈ st, same_slot t s = true) →
      session_create st s = (st, some StoreError.constraintViolation)) := by
  constructor
  · intro st h
    have hinv : session_inv st := by
      induction h with
      | init => exact List.Pairwise.nil
      | create st s st2 _ heq ih => exact session_inv_create st s st2 heq ih
      | edit st sid s st2 _ heq ih => exact session_inv_edit st sid s st2 heq ih
    exact hinv.imp (fun hab => hab.1)
  · rintro st s ⟨t, ht, hslot⟩
    unfold session_create
    rw [if_pos (List.any_eq_true.mpr ⟨t, ht, by rw [same_slot_set_id]; exact hslot⟩)]

theorem session_slot_uniqueness_witness :
    List.Pairwise (fun a b => same_slot a b = false) ([] : List TrainingSession) ∧
    session_create [⟨1, 1, none, 0, 480⟩] ⟨0, 1, none, 0, 480⟩ =
      ([⟨1, 1, none, 0, 480⟩], some StoreError.constraintViolation) :=
  ⟨session_slot_uniqueness.1 [] SessionReachable.init,
    session_slot_uniqueness.2 _ _ ⟨⟨1, 1, none, 0, 480⟩, by decide, by decide⟩⟩

/-- C10: a session accepted through the admin form (create or edit, the
result carrying no error) has its date between 30 days in the past and
365 days in the future of the current day and its time between 8:00 and
18:00 inclusive (480 and 1080 minutes); a date or time outside these
bounds is rejected with a validation error and the store is unchanged
(validators.py lines 263-313 run by the model form of forms.py
lines 238-262). -/
theorem session_datetime_validation (st : List TrainingSession) (today : Int)
    (sid : Nat) (s : TrainingSession) :
    ((validate_training_session_date today s.date = none ∧
        validate_training_session_time s.time_est = none) ↔
      (today - 30 ≤ s.date ∧ s.date ≤ today + 365 ∧
        480 ≤ s.time_est ∧ s.time_est ≤ 1080)) ∧
    ((form_create_training_session st today s).2 ≠ some StoreError.validationError ↔
      (today - 30 ≤ s.date ∧ s.date ≤ today + 365 ∧
        480 ≤ s.time_est ∧ s.time_est ≤ 1080)) ∧
    ((form_create_training_session st today s).2 = none →
      (today - 30 ≤ s.date ∧ s.date ≤ today + 365 ∧
        480 ≤ s.time_est ∧ s.time_est ≤ 1080)) ∧
    ((form_edit_training_session st today sid s).2 = none →
      (today - 30 ≤ s.date ∧ s.date ≤ today + 365 ∧
        480 ≤ s.time_est ∧ s.time_est ≤ 1080)) ∧
    (¬ (today - 30 ≤ s.date ∧ s.date ≤ today + 365 ∧
        480 ≤ s.time_est ∧ s.time_est ≤ 1080) →
      form_create_training_session st today s = (st, some StoreError.validationError) ∧
      form_edit_training_session st today sid s = (st, some StoreError.validationError)) := by
  have hval : (validate_training_session_date today s.date = none ∧
      validate_training_session_time s.time_est = none) ↔
      (today - 30 ≤ s.date ∧ s.date ≤ today + 365 ∧
        480 ≤ s.time_est ∧ s.time_est ≤ 1080) := by
    unfold validate_training_session_date validate_training_session_time
    by_cases hd1 : today + 365 < s.date <;> by_cases hd2 : s.date < today - 30 <;>
      by_cases ht1 : s.time_est < 480 <;> by_cases ht2 : 1080 < s.time_est <;>
      simp [hd1, hd2, ht1, ht2] <;> omega
  by_cases hb : today - 30 ≤ s.date ∧ s.date ≤ today + 365 ∧
      480 ≤ s.time_est ∧ s.time_est ≤ 1080
  · have hv := hval.mpr hb
    have hguard : ((validate_training_session_date today s.date).isSome ||
        (validate_training_session_time s.time_est).isSome) = false := by
      simp [hv.1, hv.2]
    refine ⟨hval, ?_, fun _ => hb, fun _ => hb, fun hc => absurd hb hc⟩
    constructor
    · intro _
      exact hb
    · intro _
      unfold form_create_training_session
      rw [hguard]
      simp only [Bool.false_eq_true, if_false]
      unfold session_create
      split <;> simp
  · have hv : ¬ (validate_training_session_date today s.date = none ∧
        validate_training_session_time s.time_est = none) := fun h => hb (hval.mp h)
    have hguard : ((validate_training_session_date today s.date).isSome ||
        (validate_training_session_time s.time_est).isSome) = true := by
      rcases Option.eq_none_or_eq_some (validate_training_session_date today s.date) with
        hca | ⟨v, hca⟩
      · rcases Option.eq_none_or_eq_some (validate_training_session_time s.time_est) with
          hcb | ⟨w, hcb⟩
        · exact absurd ⟨hca, hcb⟩ hv
        · simp [hcb]
      · simp [hca]
    have hc : form_create_training_session st today s =
        (st, some StoreError.validationError) := by
      unfold form_create_training_session
      rw [hguard]
      rfl
    have he : form_edit_training_session st today sid s =
        (st, some StoreError.validationError) := by
      unfold form_edit_training_session
      rw [hguard]
      rfl
    refine ⟨hval, ?_, ?_, ?_, fun _ => ⟨hc, he⟩⟩
    · rw [hc]
      exact ⟨fun hcontra => absurd rfl hcontra, fun hbb => absurd hbb hb⟩
    · rw [hc]
      intro hcontra
      exact absurd hcontra (by simp)
    · rw [he]
      intro hcontra
      exact absurd hcontra (by simp)

theorem session_datetime_validation_witness :
    form_create_training_session [] 0 ⟨0, 1, none, 500, 600⟩ =
      ([], some StoreError.validationError) := by
  have h := session_datetime_validation [] 0 0 ⟨0, 1, none, 500, 600⟩
  exact (h.2.2.2.2 (by decide)).1
